import Mathlib

/-!
Verification development for the BuySense marketplace extraction and
price-aggregation engine (backend/src/services/scraper.ts and the
price-ranking step of backend/src/index.ts).

The TypeScript code is shallowly embedded: pure string processing is
translated to functions over `List Char` / `String`, JS `number` values
arising from price parsing are modelled as `ℚ` (all prices in this code
are finite decimals), fetched pages are modelled as records holding the
text results of the CSS-selector queries the scrapers perform plus the
parsed JSON-LD script blocks embedded in the page, and a failed fetch is
an `Option.none` input. `Math.round` is JS round-half-up, which is
Mathlib's `round`.
-/

/-- Lowercase a string character by character (model of JS `toLowerCase`
for the ASCII domain tokens used by the router). -/
def strLower (s : String) : String := ⟨s.data.map Char.toLower⟩

/-- Characters considered whitespace by `trim`. -/
def trimWs (l : List Char) : List Char :=
  ((l.dropWhile Char.isWhitespace).reverse.dropWhile Char.isWhitespace).reverse

/-- Model of JS `String.prototype.trim`. -/
def strTrim (s : String) : String := ⟨trimWs s.data⟩

/-- Keep only ASCII digits (model of `replace(/[^\d]/g, '')`). -/
def onlyDigits (s : String) : String := ⟨s.data.filter Char.isDigit⟩

/-- Whether the first list is a prefix of the second (helper for the
substring test below). -/
def listStartsWith : List Char → List Char → Bool
  | [], _ => true
  | _ :: _, [] => false
  | p :: ps, h :: hs => p == h && listStartsWith ps hs

/-- Substring containment on char lists (model of JS `String.prototype.includes`). -/
def listContains (pat : List Char) : List Char → Bool
  | [] => listStartsWith pat []
  | c :: rest => listStartsWith pat (c :: rest) || listContains pat rest

/-- Model of JS `includes` on strings. -/
def strContains (s pat : String) : Bool := listContains pat.data s.data

/-- Decimal digits to a natural number, most significant first. -/
def digitsToNat (ds : List Char) : ℕ :=
  ds.foldl (fun a c => 10 * a + (c.toNat - 48)) 0

/-- Value of a numeric token of the shape `\d+(\.\d*)?` as an exact
rational (model of JS `parseFloat` restricted to such tokens, which is
exact for decimal literals). -/
def tokenValue (t : List Char) : ℚ :=
  match t.dropWhile (fun c => !(c == '.')) with
  | _ :: fr =>
    (digitsToNat (t.takeWhile (fun c => !(c == '.'))) : ℚ) +
      (digitsToNat fr : ℚ) / (10 : ℚ) ^ fr.length
  | [] => (digitsToNat (t.takeWhile (fun c => !(c == '.'))) : ℚ)

/-- Model of `Math.round(q * 100) / 100` (round to 2 fractional digits);
Mathlib's `round` is round-half-up exactly like JS `Math.round`. -/
def round2 (q : ℚ) : ℚ := ((round (q * 100) : ℤ) : ℚ) / 100

/-- Remove the currency symbols `₹ $ € £` (model of `replace(/[₹$€£]/g, '')`). -/
def removeCurrencySymbols (l : List Char) : List Char :=
  l.filter (fun c => !(c == '₹' || c == '$' || c == '€' || c == '£'))

/-- Model of `replace(/MRP:?/gi, '')`: left-to-right scan removing each
case-insensitive occurrence of `MRP` together with an optional following
colon (the `:?` of the regex is greedy). -/
def stripMRP : List Char → List Char
  | c1 :: c2 :: c3 :: ':' :: rest =>
    if c1.toLower == 'm' && c2.toLower == 'r' && c3.toLower == 'p' then
      stripMRP rest
    else c1 :: stripMRP (c2 :: c3 :: ':' :: rest)
  | c1 :: c2 :: c3 :: rest =>
    if c1.toLower == 'm' && c2.toLower == 'r' && c3.toLower == 'p' then
      stripMRP rest
    else c1 :: stripMRP (c2 :: c3 :: rest)
  | s => s

/-- Model of `replace(/Rs\.?/gi, '')`. -/
def stripRs : List Char → List Char
  | c1 :: c2 :: '.' :: rest =>
    if c1.toLower == 'r' && c2.toLower == 's' then
      stripRs rest
    else c1 :: stripRs (c2 :: '.' :: rest)
  | c1 :: c2 :: rest =>
    if c1.toLower == 'r' && c2.toLower == 's' then
      stripRs rest
    else c1 :: stripRs (c2 :: rest)
  | s => s

/-- Model of `replace(/INR/gi, '')`. -/
def stripINR : List Char → List Char
  | c1 :: c2 :: c3 :: rest =>
    if c1.toLower == 'i' && c2.toLower == 'n' && c3.toLower == 'r' then
      stripINR rest
    else c1 :: stripINR (c2 :: c3 :: rest)
  | s => s

/-- Maximal numeric token starting at the head of `s` (which starts with a
digit): digits, then an optional dot followed by digits — the match of
`/(\d+\.?\d*)/` anchored at the first digit. -/
def takeNumToken (s : List Char) : List Char :=
  let ds := s.takeWhile Char.isDigit
  let rest := s.dropWhile Char.isDigit
  match rest with
  | '.' :: rest2 => ds ++ '.' :: rest2.takeWhile Char.isDigit
  | _ => ds

/-- First numeric token in the list, scanning left to right (the search
performed by `cleaned.match(/(\d+\.?\d*)/)`). -/
def findNumToken : List Char → Option (List Char)
  | [] => none
  | c :: rest => if c.isDigit then some (takeNumToken (c :: rest)) else findNumToken rest

/-- Model of `parsePrice` (scraper.ts lines 58–79): strip currency
symbols, `MRP:?`, `Rs.?`, `INR`; trim; remove all commas; take the first
numeric token; parse it and round to 2 fractional digits; `0` when the
input is empty or holds no numeric token. -/
def cleanedPriceChars (priceStr : String) : List Char :=
  (trimWs (stripINR (stripRs (stripMRP (removeCurrencySymbols priceStr.data))))).filter
    (fun c => !(c == ','))

/-- Model of `parsePrice` (scraper.ts lines 58–79), continued: dispatch on
the first numeric token of the cleaned text. -/
def parsePrice (priceStr : String) : ℚ :=
  if priceStr.data.isEmpty then 0
  else
    match findNumToken (cleanedPriceChars priceStr) with
    | none => 0
    | some tok => round2 (tokenValue tok)

/-! JSON `parseFloat` and the JSON-LD structured-data reader
(`extractPriceFromJsonLd`, scraper.ts lines 102–144). A script block is
modelled as `none` when `JSON.parse` fails, otherwise as the list of
JSON-LD items it holds (a single object is a one-element list, matching
the `Array.isArray` normalisation in the code). Offer price fields are
modelled as the JSON strings they hold (`none` = field absent); JS
truthiness for these fields is non-emptiness. -/

/-- Leading whitespace skipped by `parseFloat`. -/
def pfBody (s : List Char) : List Char := s.dropWhile Char.isWhitespace

/-- Drop one optional sign character. -/
def pfUnsigned : List Char → List Char
  | c :: r => if c == '+' || c == '-' then r else c :: r
  | [] => []

/-- Sign factor of the optional leading sign. -/
def pfSignVal : List Char → ℚ
  | c :: _ => if c == '-' then -1 else 1
  | [] => 1

/-- Integer-part digits of the mantissa. -/
def pfIntChars (cs : List Char) : List Char := cs.takeWhile Char.isDigit

/-- Remainder after the integer part. -/
def pfRest1 (cs : List Char) : List Char := cs.dropWhile Char.isDigit

/-- Fractional-part digits (after an optional dot). -/
def pfFracChars (cs : List Char) : List Char :=
  match pfRest1 cs with
  | '.' :: r => r.takeWhile Char.isDigit
  | _ => []

/-- Remainder after the mantissa. -/
def pfRest2 (cs : List Char) : List Char :=
  match pfRest1 cs with
  | '.' :: r => r.dropWhile Char.isDigit
  | other => other

/-- Signed exponent digits after `e`/`E`; `0` when absent or malformed
(`parseFloat` ignores a dangling exponent marker). -/
def pfExpVal (r : List Char) : ℤ :=
  match r with
  | '-' :: d =>
    if (d.takeWhile Char.isDigit).isEmpty then 0 else -(digitsToNat (d.takeWhile Char.isDigit) : ℤ)
  | '+' :: d =>
    if (d.takeWhile Char.isDigit).isEmpty then 0 else (digitsToNat (d.takeWhile Char.isDigit) : ℤ)
  | d =>
    if (d.takeWhile Char.isDigit).isEmpty then 0 else (digitsToNat (d.takeWhile Char.isDigit) : ℤ)

/-- Exponent value of the tail following the mantissa. -/
def pfExp (cs : List Char) : ℤ :=
  match pfRest2 cs with
  | c :: r => if c == 'e' || c == 'E' then pfExpVal r else 0
  | [] => 0

/-- Model of JS `parseFloat` on a char list: `none` is `NaN`. -/
def parseFloatChars (s : List Char) : Option ℚ :=
  if (pfIntChars (pfUnsigned (pfBody s))).isEmpty &&
      (pfFracChars (pfUnsigned (pfBody s))).isEmpty then none
  else some (pfSignVal (pfBody s) *
    ((digitsToNat (pfIntChars (pfUnsigned (pfBody s))) : ℚ) +
      (digitsToNat (pfFracChars (pfUnsigned (pfBody s))) : ℚ) /
        (10 : ℚ) ^ (pfFracChars (pfUnsigned (pfBody s))).length) *
    (10 : ℚ) ^ (pfExp (pfUnsigned (pfBody s))))

/-- Model of JS `parseFloat` on a string. -/
def jsParseFloat (s : String) : Option ℚ := parseFloatChars s.data

/-- One offer object inside a JSON-LD `offers` field. -/
structure LdOffer where
  price : Option String
  lowPrice : Option String
  highPrice : Option String
deriving Repr, DecidableEq

/-- One JSON-LD item: whether its `@type` is (or contains) `Product`, and
its `offers` field normalised to a list (`none` = absent). -/
structure LdItem where
  isProduct : Bool
  offers : Option (List LdOffer)
deriving Repr, DecidableEq

/-- Result of the JSON-LD price reader. -/
structure LdPrice where
  current : ℚ
  original : Option ℚ
deriving Repr, DecidableEq

/-- Model of `const price = offer.price || offer.lowPrice` (JS `||` on
string-valued fields: an absent or empty `price` falls back to `lowPrice`). -/
def offerPriceField (o : LdOffer) : Option String :=
  match o.price with
  | some s => if s.data.isEmpty then o.lowPrice else some s
  | none => o.lowPrice

/-- Model of the `if (price && !isNaN(parseFloat(price)))` guard and the
record returned for one offer. -/
def extractOfferPrice (o : LdOffer) : Option LdPrice :=
  match offerPriceField o with
  | none => none
  | some s =>
    if s.data.isEmpty then none
    else
      match jsParseFloat s with
      | none => none
      | some v =>
        some { current := v,
               original := match o.highPrice with
                 | some h => if h.data.isEmpty then none else jsParseFloat h
                 | none => none }

/-- First offer in the list with a usable price. -/
def firstOfferPrice : List LdOffer → Option LdPrice
  | [] => none
  | o :: rest =>
    match extractOfferPrice o with
    | some p => some p
    | none => firstOfferPrice rest

/-- Price of one JSON-LD item, when it is a `Product` with offers. -/
def itemPrice (it : LdItem) : Option LdPrice :=
  if it.isProduct then
    match it.offers with
    | some offs => firstOfferPrice offs
    | none => none
  else none

/-- First item in a parsed script block yielding a price. -/
def itemsPrice : List LdItem → Option LdPrice
  | [] => none
  | it :: rest =>
    match itemPrice it with
    | some p => some p
    | none => itemsPrice rest

/-- Model of `extractPriceFromJsonLd`: scan script blocks in order,
skipping blocks that failed to parse, returning the first Product offer
price found. -/
def extractPriceFromJsonLd : List (Option (List LdItem)) → Option LdPrice
  | [] => none
  | none :: rest => extractPriceFromJsonLd rest
  | some items :: rest =>
    match itemsPrice items with
    | some p => some p
    | none => extractPriceFromJsonLd rest

/-! Site extractors (scraper.ts lines 148–733). A fetched page is a record
of the text results of the selector queries each scraper issues, in the
order the scraper tries them, together with the JSON-LD script blocks the
page embeds. A failed `fetchPage` (network error / non-2xx) is `none`;
fields the claims do not inspect (brand, images, specifications, ratings)
are carried through as the values their per-site chains produce. -/

/-- Price block of a `ScrapedProduct`. -/
structure ProductPrice where
  current : ℚ
  original : Option ℚ
  currency : String
deriving Repr, DecidableEq

/-- Ratings block of a `ScrapedProduct`. -/
structure ProductRatings where
  average : ℚ
  count : ℤ
deriving Repr, DecidableEq

/-- Model of the `ScrapedProduct` interface (scraper.ts lines 3–18). -/
structure ScrapedProduct where
  title : String
  brand : String
  price : ProductPrice
  images : List String
  specifications : List (String × String)
  ratings : ProductRatings
  highlights : List String
deriving Repr, DecidableEq

/-- First string in the chain whose trimmed text is non-empty, or `""`
(the JS `a.trim() || b.trim() || ... || ''` pattern). -/
def firstNonempty : List String → String
  | [] => ""
  | s :: rest => if (strTrim s).data.isEmpty then firstNonempty rest else strTrim s

/-- Model of `title || 'Product'`. -/
def orProduct (s : String) : String := if s.data.isEmpty then "Product" else s

/-- First selector text whose trimmed value is non-empty and parses to a
positive price; later selectors are still tried when a non-empty text
parses to `0` (the `if (priceText) { if (parsed > 0) break } }` loop). -/
def firstPositivePrice : List String → ℚ
  | [] => 0
  | t :: rest =>
    if (strTrim t).data.isEmpty then firstPositivePrice rest
    else if 0 < parsePrice (strTrim t) then parsePrice (strTrim t)
    else firstPositivePrice rest

/-- Model of `original > current ? original : undefined`. -/
def originalIfGreater (original current : ℚ) : Option ℚ :=
  if current < original then some original else none

/-- Amazon product page (scraper.ts lines 148–300): selector-query results
in the order the scraper consults them. -/
structure AmazonPage where
  jsonLdScripts : List (Option (List LdItem))
  titleTexts : List String
  brand : String
  priceWholeText : String
  priceFractionText : String
  altPriceTexts : List String
  originalPriceTexts : List String
  images : List String
  specifications : List (String × String)
  ratings : ProductRatings
  highlightTexts : List String
  highlightFallbackTexts : List String
deriving Repr, DecidableEq

/-- Amazon method 1: `.a-price-whole` / `.a-price-fraction` digits glued
with a dot (`parseFloat(priceWhole + '.' + (priceFraction || '00'))`). -/
def amazonWholeFractionPrice (pg : AmazonPage) : ℚ :=
  if (onlyDigits pg.priceWholeText).data.isEmpty then 0
  else
    tokenValue ((onlyDigits pg.priceWholeText).data ++ '.' ::
      (if (onlyDigits pg.priceFractionText).data.isEmpty then ['0', '0']
       else (onlyDigits pg.priceFractionText).data))

/-- Amazon methods 1–2: the DOM-only price (before the JSON-LD fallback). -/
def amazonDomPrice (pg : AmazonPage) : ℚ :=
  if amazonWholeFractionPrice pg = 0 then firstPositivePrice pg.altPriceTexts
  else amazonWholeFractionPrice pg

/-- Amazon method 3: fall back to JSON-LD when the DOM price is `0`. -/
def amazonCurrentPrice (pg : AmazonPage) : ℚ :=
  if amazonDomPrice pg = 0 then
    match extractPriceFromJsonLd pg.jsonLdScripts with
    | some lp => lp.current
    | none => 0
  else amazonDomPrice pg

/-- Amazon highlights: primary `#feature-bullets` chain filtered to
`10 < length < 500` without `›`, falling back to the about-this-item
chain filtered to `10 < length < 500`. -/
def amazonHighlights (pg : AmazonPage) : List String :=
  if ((pg.highlightTexts.map strTrim).filter (fun t =>
      !t.data.isEmpty && decide (10 < t.length) && decide (t.length < 500) &&
        !strContains t "›")).isEmpty then
    (pg.highlightFallbackTexts.map strTrim).filter (fun t =>
      !t.data.isEmpty && decide (10 < t.length) && decide (t.length < 500))
  else
    (pg.highlightTexts.map strTrim).filter (fun t =>
      !t.data.isEmpty && decide (10 < t.length) && decide (t.length < 500) &&
        !strContains t "›")

/-- Record built by `scrapeAmazonProduct` from a fetched page. -/
def buildAmazonProduct (pg : AmazonPage) : ScrapedProduct :=
  { title := orProduct (firstNonempty pg.titleTexts)
    brand := pg.brand
    price :=
      { current := amazonCurrentPrice pg
        original := originalIfGreater (parsePrice (firstNonempty pg.originalPriceTexts))
          (amazonCurrentPrice pg)
        currency := "INR" }
    images := pg.images.take 6
    specifications := pg.specifications
    ratings := pg.ratings
    highlights := (amazonHighlights pg).take 6 }

/-- Model of `scrapeAmazonProduct`: `none` exactly when the fetch failed. -/
def scrapeAmazonProduct (fetched : Option AmazonPage) : Option ScrapedProduct :=
  fetched.map buildAmazonProduct

/-- Flipkart product page (scraper.ts lines 304–433). -/
structure FlipkartPage where
  jsonLdScripts : List (Option (List LdItem))
  titleTexts : List String
  brand : String
  priceTexts : List String
  originalPriceTexts : List String
  images : List String
  specifications : List (String × String)
  ratings : ProductRatings
  highlightTexts : List String
deriving Repr, DecidableEq

/-- Flipkart DOM price: first selector with a positive parse. -/
def flipkartDomPrice (pg : FlipkartPage) : ℚ := firstPositivePrice pg.priceTexts

/-- Flipkart current price with the JSON-LD fallback. -/
def flipkartCurrentPrice (pg : FlipkartPage) : ℚ :=
  if flipkartDomPrice pg = 0 then
    match extractPriceFromJsonLd pg.jsonLdScripts with
    | some lp => lp.current
    | none => 0
  else flipkartDomPrice pg

/-- Flipkart original price: first selector whose text contains `₹` and
parses above the current price (the loop keeps scanning otherwise). -/
def flipkartOriginalPrice (texts : List String) (current : ℚ) : ℚ :=
  match texts with
  | [] => 0
  | t :: rest =>
    if !(strTrim t).data.isEmpty && strContains (strTrim t) "₹" &&
        decide (current < parsePrice (strTrim t)) then parsePrice (strTrim t)
    else flipkartOriginalPrice rest current

/-- Record built by `scrapeFlipkartProduct` from a fetched page;
highlights are filtered to `5 < length < 300`. -/
def buildFlipkartProduct (pg : FlipkartPage) : ScrapedProduct :=
  { title := orProduct (firstNonempty pg.titleTexts)
    brand := pg.brand
    price :=
      { current := flipkartCurrentPrice pg
        original := originalIfGreater
          (flipkartOriginalPrice pg.originalPriceTexts (flipkartCurrentPrice pg))
          (flipkartCurrentPrice pg)
        currency := "INR" }
    images := pg.images.take 6
    specifications := pg.specifications
    ratings := pg.ratings
    highlights := ((pg.highlightTexts.map strTrim).filter (fun t =>
      !t.data.isEmpty && decide (5 < t.length) && decide (t.length < 300))).take 6 }

/-- Model of `scrapeFlipkartProduct`. -/
def scrapeFlipkartProduct (fetched : Option FlipkartPage) : Option ScrapedProduct :=
  fetched.map buildFlipkartProduct

/-- Page model shared by the Croma, Meesho, Reliance Digital and Myntra
scrapers (scraper.ts lines 437–697), whose extraction logic is identical
up to the selector chains the page record carries: the current and
original prices are `parsePrice` of the first non-empty selector text,
highlights are filtered to `length > 5` with no upper bound, and the
embedded JSON-LD blocks are never consulted. -/
structure BasicPage where
  jsonLdScripts : List (Option (List LdItem))
  titleTexts : List String
  brand : String
  priceTexts : List String
  originalPriceTexts : List String
  images : List String
  specifications : List (String × String)
  ratings : ProductRatings
  highlightTexts : List String
deriving Repr, DecidableEq

/-- Current price of the four basic scrapers: `parsePrice` of the first
non-empty selector text (a non-empty text parsing to `0` is not retried). -/
def basicCurrentPrice (pg : BasicPage) : ℚ := parsePrice (firstNonempty pg.priceTexts)

/-- Record built by the four basic scrapers from a fetched page. -/
def buildBasicProduct (pg : BasicPage) : ScrapedProduct :=
  { title := orProduct (firstNonempty pg.titleTexts)
    brand := pg.brand
    price :=
      { current := basicCurrentPrice pg
        original := originalIfGreater (parsePrice (firstNonempty pg.originalPriceTexts))
          (basicCurrentPrice pg)
        currency := "INR" }
    images := pg.images.take 6
    specifications := pg.specifications
    ratings := pg.ratings
    highlights := ((pg.highlightTexts.map strTrim).filter (fun t =>
      !t.data.isEmpty && decide (5 < t.length))).take 6 }

/-- Model of `scrapeCromaProduct`. -/
def scrapeCromaProduct (fetched : Option BasicPage) : Option ScrapedProduct :=
  fetched.map buildBasicProduct

/-- Model of `scrapeMeeshoProduct`. -/
def scrapeMeeshoProduct (fetched : Option BasicPage) : Option ScrapedProduct :=
  fetched.map buildBasicProduct

/-- Model of `scrapeRelianceDigitalProduct`. -/
def scrapeRelianceDigitalProduct (fetched : Option BasicPage) : Option ScrapedProduct :=
  fetched.map buildBasicProduct

/-- Model of `scrapeMyntraProduct`. -/
def scrapeMyntraProduct (fetched : Option BasicPage) : Option ScrapedProduct :=
  fetched.map buildBasicProduct

/-- Fetch environment for the router: the page each marketplace's scraper
would obtain for the requested URL (`none` = that fetch would fail). -/
structure FetchEnv where
  amazon : Option AmazonPage
  flipkart : Option FlipkartPage
  croma : Option BasicPage
  meesho : Option BasicPage
  reliance : Option BasicPage
  myntra : Option BasicPage
deriving Repr, DecidableEq

/-- The six marketplaces the router knows. -/
inductive Marketplace
  | amazon
  | flipkart
  | croma
  | meesho
  | reliance
  | myntra
deriving Repr, DecidableEq

/-- Router dispatch written exactly as the `if` chain of `scrapeProduct`
(scraper.ts lines 704–733). -/
def routeMarketplace (url : String) : Option Marketplace :=
  if strContains (strLower url) "amazon" then some Marketplace.amazon
  else if strContains (strLower url) "flipkart" then some Marketplace.flipkart
  else if strContains (strLower url) "croma" then some Marketplace.croma
  else if strContains (strLower url) "meesho" then some Marketplace.meesho
  else if strContains (strLower url) "reliancedigital" then some Marketplace.reliance
  else if strContains (strLower url) "myntra" then some Marketplace.myntra
  else none

/-- Domain tokens in the priority order the router tests them. -/
def marketTokenTable : List (Marketplace × String) :=
  [(Marketplace.amazon, "amazon"), (Marketplace.flipkart, "flipkart"),
   (Marketplace.croma, "croma"), (Marketplace.meesho, "meesho"),
   (Marketplace.reliance, "reliancedigital"), (Marketplace.myntra, "myntra")]

/-- Reformulation of the router from the spec's words: first marketplace
in the fixed table whose domain token is a case-insensitive substring of
the URL. -/
def routeFirstMatch (url : String) : Option Marketplace :=
  (marketTokenTable.find? (fun e => strContains (strLower url) e.2)).map Prod.fst

/-- Extractor invoked for a routed marketplace. -/
def extractFor (m : Marketplace) (env : FetchEnv) : Option ScrapedProduct :=
  match m with
  | Marketplace.amazon => scrapeAmazonProduct env.amazon
  | Marketplace.flipkart => scrapeFlipkartProduct env.flipkart
  | Marketplace.croma => scrapeCromaProduct env.croma
  | Marketplace.meesho => scrapeMeeshoProduct env.meesho
  | Marketplace.reliance => scrapeRelianceDigitalProduct env.reliance
  | Marketplace.myntra => scrapeMyntraProduct env.myntra

/-- Model of `scrapeProduct`: route on the lowercased URL and delegate;
`none` with no fetch when no marketplace token matches. -/
def scrapeProduct (env : FetchEnv) (url : String) : Option ScrapedProduct :=
  match routeMarketplace url with
  | some m => extractFor m env
  | none => none

/-! Search-based price comparison (scraper.ts lines 737–1002). Each
search function receives the search-results page its single fetch would
produce (`none` = fetch failed or an exception was caught). The
aggregator's `Promise.race` against the 10-second timer is modelled by a
`timedOut` flag: when the deadline wins, the batch contributes nothing. -/

/-- Uppercase hex digit of a value below 16. -/
def hexDigit (n : ℕ) : Char := if n < 10 then Char.ofNat (48 + n) else Char.ofNat (55 + n)

/-- UTF-8 bytes of one character. -/
def utf8Bytes (c : Char) : List ℕ :=
  if c.toNat < 128 then [c.toNat]
  else if c.toNat < 2048 then [192 + c.toNat / 64, 128 + c.toNat % 64]
  else if c.toNat < 65536 then
    [224 + c.toNat / 4096, 128 + (c.toNat / 64) % 64, 128 + c.toNat % 64]
  else
    [240 + c.toNat / 262144, 128 + (c.toNat / 4096) % 64, 128 + (c.toNat / 64) % 64,
      128 + c.toNat % 64]

/-- Characters `encodeURIComponent` leaves unescaped. -/
def isUnreserved (c : Char) : Bool :=
  c.isAlpha || c.isDigit || c == '-' || c == '_' || c == '.' || c == '!' || c == '~' ||
    c == '*' || c.toNat == 39 || c == '(' || c == ')'

/-- Model of JS `encodeURIComponent`. -/
def encodeURIComponent (s : String) : String :=
  ⟨(s.data.map (fun c =>
    if isUnreserved c then [c]
    else ((utf8Bytes c).map (fun b => ['%', hexDigit (b / 16), hexDigit (b % 16)])).flatten)).flatten⟩

/-- Model of JS `substring(0, n)`. -/
def strTake (s : String) (n : ℕ) : String := ⟨s.data.take n⟩

/-- Model of `link.split('?')[0]`. -/
def splitBeforeQuery (s : String) : String := ⟨s.data.takeWhile (fun c => !(c == '?'))⟩

/-- Availability enum of the `MarketplacePrice` interface. -/
inductive Availability
  | inStock
  | outOfStock
  | limited
deriving Repr, DecidableEq

/-- Model of the `MarketplacePrice` interface (scraper.ts lines 737–744). -/
structure MarketplacePrice where
  store : String
  price : ℚ
  currency : String
  url : String
  availability : Availability
  productTitle : Option String
deriving Repr, DecidableEq

/-- Amazon search-results page: presence of a first `s-search-result`,
the price-selector texts inside it, the product link and the title text. -/
structure AmazonSearchPage where
  hasResult : Bool
  priceTexts : List String
  productLink : Option String
  titleText : String
deriving Repr, DecidableEq

/-- Search URL built by `searchAmazonPrice`. -/
def amazonSearchUrl (productTitle : String) : String :=
  "https://www.amazon.in/s?k=" ++ encodeURIComponent (strTake productTitle 100)

/-- Model of `searchAmazonPrice`: `none` on fetch failure, missing first
result, or no positive price among the search-result selectors. -/
def searchAmazonPrice (productTitle : String) (fetched : Option AmazonSearchPage) :
    Option MarketplacePrice :=
  match fetched with
  | none => none
  | some pg =>
    if !pg.hasResult then none
    else if 0 < firstPositivePrice pg.priceTexts then
      some { store := "Amazon"
             price := firstPositivePrice pg.priceTexts
             currency := "INR"
             url := match pg.productLink with
               | some l =>
                 if l.data.isEmpty then amazonSearchUrl productTitle
                 else "https://www.amazon.in" ++ splitBeforeQuery l
               | none => amazonSearchUrl productTitle
             availability := Availability.inStock
             productTitle := some (strTrim pg.titleText) }
    else none

/-- Flipkart search-results page. -/
structure FlipkartSearchPage where
  priceTexts : List String
  productLink : Option String
  titleTexts : List String
deriving Repr, DecidableEq

/-- Search URL built by `searchFlipkartPrice`. -/
def flipkartSearchUrl (productTitle : String) : String :=
  "https://www.flipkart.com/search?q=" ++ encodeURIComponent (strTake productTitle 100)

/-- Model of `searchFlipkartPrice`. -/
def searchFlipkartPrice (productTitle : String) (fetched : Option FlipkartSearchPage) :
    Option MarketplacePrice :=
  match fetched with
  | none => none
  | some pg =>
    if 0 < firstPositivePrice pg.priceTexts then
      some { store := "Flipkart"
             price := firstPositivePrice pg.priceTexts
             currency := "INR"
             url := match pg.productLink with
               | some l =>
                 if l.data.isEmpty then flipkartSearchUrl productTitle
                 else "https://www.flipkart.com" ++ splitBeforeQuery l
               | none => flipkartSearchUrl productTitle
             availability := Availability.inStock
             productTitle := some (firstNonempty pg.titleTexts) }
    else none

/-- Croma / Reliance Digital search-results page: a single price-selector
text, the product link and the title text. -/
structure SingleSearchPage where
  priceText : String
  productLink : Option String
  titleText : String
deriving Repr, DecidableEq

/-- Search URL built by `searchCromaPrice`. -/
def cromaSearchUrl (productTitle : String) : String :=
  "https://www.croma.com/search/?q=" ++ encodeURIComponent (strTake productTitle 80)

/-- Model of `searchCromaPrice` (single selector, no query-string split on
the product link). -/
def searchCromaPrice (productTitle : String) (fetched : Option SingleSearchPage) :
    Option MarketplacePrice :=
  match fetched with
  | none => none
  | some pg =>
    if 0 < parsePrice (strTrim pg.priceText) then
      some { store := "Croma"
             price := parsePrice (strTrim pg.priceText)
             currency := "INR"
             url := match pg.productLink with
               | some l =>
                 if l.data.isEmpty then cromaSearchUrl productTitle
                 else "https://www.croma.com" ++ l
               | none => cromaSearchUrl productTitle
             availability := Availability.inStock
             productTitle := some (strTrim pg.titleText) }
    else none

/-- Search URL built by `searchReliancePrice`. -/
def relianceSearchUrl (productTitle : String) : String :=
  "https://www.reliancedigital.in/search?q=" ++ encodeURIComponent (strTake productTitle 80)

/-- Model of `searchReliancePrice`. -/
def searchReliancePrice (productTitle : String) (fetched : Option SingleSearchPage) :
    Option MarketplacePrice :=
  match fetched with
  | none => none
  | some pg =>
    if 0 < parsePrice (strTrim pg.priceText) then
      some { store := "Reliance Digital"
             price := parsePrice (strTrim pg.priceText)
             currency := "INR"
             url := match pg.productLink with
               | some l =>
                 if l.data.isEmpty then relianceSearchUrl productTitle
                 else "https://www.reliancedigital.in" ++ l
               | none => relianceSearchUrl productTitle
             availability := Availability.inStock
             productTitle := some (strTrim pg.titleText) }
    else none

/-- Search-results pages the four concurrent search operations would
fetch. -/
structure SearchBatch where
  amazon : Option AmazonSearchPage
  flipkart : Option FlipkartSearchPage
  croma : Option SingleSearchPage
  reliance : Option SingleSearchPage
deriving Repr, DecidableEq

/-- The batch of search operations launched by `searchProductPrices`: one
per searchable marketplace whose token does not occur (case-insensitively)
in the source marketplace name (scraper.ts lines 963–977). -/
def batchOutcomes (productTitle sourceMarketplace : String) (b : SearchBatch) :
    List (Option MarketplacePrice) :=
  (if !strContains (strLower sourceMarketplace) "amazon" then
    [searchAmazonPrice productTitle b.amazon] else []) ++
  (if !strContains (strLower sourceMarketplace) "flipkart" then
    [searchFlipkartPrice productTitle b.flipkart] else []) ++
  (if !strContains (strLower sourceMarketplace) "croma" then
    [searchCromaPrice productTitle b.croma] else []) ++
  (if !strContains (strLower sourceMarketplace) "reliance" then
    [searchReliancePrice productTitle b.reliance] else [])

/-- Source marketplace's own observation, pushed first (scraper.ts lines
954–960). -/
def sourceEntry (sourceMarketplace : String) (sourcePrice : ℚ) (sourceUrl : String) :
    MarketplacePrice :=
  { store := sourceMarketplace, price := sourcePrice, currency := "INR",
    url := sourceUrl, availability := Availability.inStock, productTitle := none }

/-- Model of `searchProductPrices` (scraper.ts lines 943–1002): the source
entry first, then — unless the 10-second deadline won the race — every
non-null batch result with a positive price. -/
def searchProductPrices (productTitle sourceMarketplace : String) (sourcePrice : ℚ)
    (sourceUrl : String) (b : SearchBatch) (timedOut : Bool) : List MarketplacePrice :=
  sourceEntry sourceMarketplace sourcePrice sourceUrl ::
    (((if timedOut then [] else batchOutcomes productTitle sourceMarketplace b).filterMap id).filter
      (fun r => decide (0 < r.price)))

/-! Price ranking (backend/src/index.ts lines 107–143). The searched
observations are mapped to `PriceData` with `savings := undefined` and
`isBestPrice := false`; when the list is non-empty, `bestPrice` is
`Math.min` over the prices of **all** entries and the `forEach` sets
`isBestPrice = (price === bestPrice)` on every entry and
`savings = Math.round(price - bestPrice)` on entries strictly above it.
When exactly one entry remains after ranking, up to three zero-priced
marketplace search links are appended, never ranked. -/

/-- Model of the `PriceData` record of the analyze route: `savings` is an
integer because it is always produced by `Math.round`. -/
structure PriceData where
  store : String
  price : ℚ
  currency : String
  url : String
  availability : Availability
  savings : Option ℤ
  isBestPrice : Bool
deriving Repr, DecidableEq

/-- The map at index.ts lines 107–115. -/
def toPriceData (m : MarketplacePrice) : PriceData :=
  { store := m.store, price := m.price, currency := m.currency, url := m.url,
    availability := m.availability, savings := none, isBestPrice := false }

/-- Minimum of a list of rationals (`Math.min(...)` of a non-empty list;
the `[]` case is unreachable behind the `length > 0` guard). -/
def listMinQ : List ℚ → ℚ
  | [] => 0
  | [x] => x
  | x :: y :: t => min x (listMinQ (y :: t))

/-- Body of the ranking `forEach` (index.ts lines 120–125):
`p.isBestPrice = p.price === bestPrice` and, when `p.price > bestPrice`,
`p.savings = Math.round(p.price - bestPrice)` (otherwise `savings` keeps
its previous value). -/
def rankUpd (bestPrice : ℚ) (p : PriceData) : PriceData :=
  { p with
    isBestPrice := decide (p.price = bestPrice)
    savings :=
      if bestPrice < p.price then some (round (p.price - bestPrice))
      else p.savings }

/-- The best-price / savings pass (index.ts lines 118–126): `bestPrice`
ranges over all entries, every entry equal to it is flagged, and entries
strictly above it get rounded savings. -/
def rankPrices (prices : List PriceData) : List PriceData :=
  if prices.isEmpty then prices
  else prices.map (rankUpd (listMinQ (prices.map (fun q => q.price))))

/-- Ranking applied to a list of price observations, as the analyze route
does. -/
def rankObservations (obs : List MarketplacePrice) : List PriceData :=
  rankPrices (obs.map toPriceData)

/-- Minimum price over a list of observations (`Math.min(...prices.map(p
=> p.price))` after the `toPriceData` map, which preserves prices). -/
def minObsPrice (obs : List MarketplacePrice) : ℚ := listMinQ (obs.map (fun o => o.price))

/-- Replace every `%20` with `-` (the Myntra URL tweak of
`generateMarketplaceUrls`, index.ts line 587). -/
def replacePercent20 : List Char → List Char
  | '%' :: '2' :: '0' :: rest => '-' :: replacePercent20 rest
  | c :: rest => c :: replacePercent20 rest
  | [] => []

/-- Model of `generateMarketplaceUrls` (index.ts lines 578–595): the six
named search URLs minus the source marketplace (exact case-insensitive
name equality). -/
def generateMarketplaceUrls (productTitle sourceMarketplace : String) :
    List (String × String) :=
  ([("Amazon", "https://www.amazon.in/s?k=" ++ encodeURIComponent productTitle),
    ("Flipkart", "https://www.flipkart.com/search?q=" ++ encodeURIComponent productTitle),
    ("Myntra", "https://www.myntra.com/" ++
      String.mk (replacePercent20 (encodeURIComponent productTitle).data)),
    ("Meesho", "https://www.meesho.com/search?q=" ++ encodeURIComponent productTitle),
    ("Croma", "https://www.croma.com/search/?q=" ++ encodeURIComponent productTitle),
    ("Reliance Digital", "https://www.reliancedigital.in/search?q=" ++
      encodeURIComponent productTitle)]).filter
    (fun e => !(strLower e.1 == strLower sourceMarketplace))

/-- Placeholder entry pushed for a marketplace search link (index.ts lines
133–141): unknown price `0`, never best, never with savings. -/
def placeholderEntry (e : String × String) : PriceData :=
  { store := e.1, price := 0, currency := "INR", url := e.2,
    availability := Availability.inStock, savings := none, isBestPrice := false }

/-- Ranking step of the analyze route followed by the search-link fallback
(index.ts lines 118–143): placeholders are appended only when exactly one
ranked entry remains, after ranking has already run. -/
def analyzePrices (obs : List MarketplacePrice) (productTitle marketplace : String) :
    List PriceData :=
  if (rankObservations obs).length = 1 then
    rankObservations obs ++
      ((generateMarketplaceUrls productTitle marketplace).take 3).map placeholderEntry
  else rankObservations obs

/-- Minimum over the positive prices only — the quantity the spec calls
`minPrice`, written from the spec's words for comparison with the code's
`bestPrice`. -/
def specMinPosPrice (obs : List MarketplacePrice) : ℚ :=
  listMinQ ((obs.map (fun o => o.price)).filter (fun q => decide (0 < q)))

/-- Two observations tied at the minimum price. -/
def c1TieObs : List MarketplacePrice :=
  [{ store := "Amazon", price := 100, currency := "INR", url := "a",
     availability := Availability.inStock, productTitle := none },
   { store := "Flipkart", price := 100, currency := "INR", url := "f",
     availability := Availability.inStock, productTitle := none }]

/-- A zero-priced source entry next to a positive search result. -/
def c2ZeroObs : List MarketplacePrice :=
  [{ store := "Source", price := 0, currency := "INR", url := "s",
     availability := Availability.inStock, productTitle := none },
   { store := "Amazon", price := 500, currency := "INR", url := "a",
     availability := Availability.inStock, productTitle := none }]

/-- A list whose only entry has price 0. -/
def c2AllZeroObs : List MarketplacePrice :=
  [{ store := "Source", price := 0, currency := "INR", url := "s",
     availability := Availability.inStock, productTitle := none }]

/-- The ranked image of the zero-priced source entry of `c2ZeroObs`. -/
def c2WitEntry : PriceData :=
  { store := "Source", price := 0, currency := "INR", url := "s",
    availability := Availability.inStock, savings := none, isBestPrice := true }

/-- A zero-priced entry, the minimum positive entry, and a higher entry. -/
def c3Obs : List MarketplacePrice :=
  [{ store := "Source", price := 0, currency := "INR", url := "s",
     availability := Availability.inStock, productTitle := none },
   { store := "Amazon", price := 500, currency := "INR", url := "a",
     availability := Availability.inStock, productTitle := none },
   { store := "Croma", price := 700, currency := "INR", url := "c",
     availability := Availability.inStock, productTitle := none }]

/-- A single positive observation. -/
def c3WitObs : List MarketplacePrice :=
  [{ store := "Source", price := 100, currency := "INR", url := "u",
     availability := Availability.inStock, productTitle := none }]

/-- A Croma product page on which every DOM price selector is empty while
the page embeds a JSON-LD Product offer priced `"999"`. -/
def c5CromaPage : BasicPage :=
  { jsonLdScripts :=
      [some [⟨true, some [⟨some "999", none, none⟩]⟩]]
    titleTexts := ["Croma Item"]
    brand := ""
    priceTexts := ["", "", ""]
    originalPriceTexts := []
    images := []
    specifications := []
    ratings := { average := 0, count := 0 }
    highlightTexts := [] }

/-- An Amazon page with no DOM price data and no JSON-LD. -/
def c5WitAmazonPage : AmazonPage :=
  { jsonLdScripts := []
    titleTexts := []
    brand := ""
    priceWholeText := ""
    priceFractionText := ""
    altPriceTexts := []
    originalPriceTexts := []
    images := []
    specifications := []
    ratings := { average := 0, count := 0 }
    highlightTexts := []
    highlightFallbackTexts := [] }

/-- A Croma page carrying a 7-character highlight. -/
def c9CromaPage : BasicPage :=
  { jsonLdScripts := []
    titleTexts := []
    brand := ""
    priceTexts := []
    originalPriceTexts := []
    images := []
    specifications := []
    ratings := { average := 0, count := 0 }
    highlightTexts := ["abcdefg"] }

/-- A Croma page carrying a 501-character highlight. -/
def c9LongPage : BasicPage :=
  { jsonLdScripts := []
    titleTexts := []
    brand := ""
    priceTexts := []
    originalPriceTexts := []
    images := []
    specifications := []
    ratings := { average := 0, count := 0 }
    highlightTexts := [String.mk (List.replicate 501 'x')] }

theorem mem_stripMRP (l : List Char) : ∀ c ∈ stripMRP l, c ∈ l := by
  induction l using stripMRP.induct with
  | case1 c1 c2 c3 rest h ih =>
    intro c hc
    simp only [stripMRP, h, if_true] at hc
    have := ih c hc
    simp_all
  | case2 c1 c2 c3 rest h ih =>
    intro c hc
    simp only [stripMRP, h, if_false, Bool.false_eq_true, List.mem_cons] at hc
    rcases hc with h1 | h1
    · simp [h1]
    · have := ih c h1
      simp_all
  | case3 c1 c2 c3 rest hx h ih =>
    intro c hc
    rcases rest with _ | ⟨c4, rest2⟩
    · simp only [stripMRP, h, if_true] at hc
      simp_all
    · have hc4 : ¬ c4 = ':' := fun he => hx rest2 (by rw [he])
      simp only [stripMRP, h, if_true] at hc
      have := ih c hc
      simp_all
  | case4 c1 c2 c3 rest hx h ih =>
    intro c hc
    rcases rest with _ | ⟨c4, rest2⟩
    · simp only [stripMRP, h, if_false, Bool.false_eq_true, List.mem_cons] at hc
      simp_all
    · have hc4 : ¬ c4 = ':' := fun he => hx rest2 (by rw [he])
      simp only [stripMRP, h, if_false, Bool.false_eq_true, List.mem_cons] at hc
      rcases hc with h1 | h1
      · simp [h1]
      · have := ih c h1
        simp_all
  | case5 s hx1 hx2 =>
    intro c hc
    rcases s with _ | ⟨a, _ | ⟨b, t⟩⟩
    · simp [stripMRP] at hc
    · simpa [stripMRP] using hc
    · rcases t with _ | ⟨d, t2⟩
      · simpa [stripMRP] using hc
      · exact absurd rfl (hx2 a b d t2)

theorem mem_stripRs (l : List Char) : ∀ c ∈ stripRs l, c ∈ l := by
  induction l using stripRs.induct with
  | case1 c1 c2 rest h ih =>
    intro c hc
    simp only [stripRs, h, if_true] at hc
    have := ih c hc
    simp_all
  | case2 c1 c2 rest h ih =>
    intro c hc
    simp only [stripRs, h, if_false, Bool.false_eq_true, List.mem_cons] at hc
    rcases hc with h1 | h1
    · simp [h1]
    · have := ih c h1
      simp_all
  | case3 c1 c2 rest hx h ih =>
    intro c hc
    rcases rest with _ | ⟨c4, rest2⟩
    · simp only [stripRs, h, if_true] at hc
      simp_all
    · have hc4 : ¬ c4 = '.' := fun he => hx rest2 (by rw [he])
      simp only [stripRs, h, if_true] at hc
      have := ih c hc
      simp_all
  | case4 c1 c2 rest hx h ih =>
    intro c hc
    rcases rest with _ | ⟨c4, rest2⟩
    · simp only [stripRs, h, if_false, Bool.false_eq_true, List.mem_cons] at hc
      simp_all
    · have hc4 : ¬ c4 = '.' := fun he => hx rest2 (by rw [he])
      simp only [stripRs, h, if_false, Bool.false_eq_true, List.mem_cons] at hc
      rcases hc with h1 | h1
      · simp [h1]
      · have := ih c h1
        simp_all
  | case5 s hx1 hx2 =>
    intro c hc
    rcases s with _ | ⟨a, _ | ⟨b, t⟩⟩
    · simp [stripRs] at hc
    · simpa [stripRs] using hc
    · exact absurd rfl (hx2 a b t)

theorem mem_stripINR (l : List Char) : ∀ c ∈ stripINR l, c ∈ l := by
  induction l using stripINR.induct with
  | case1 c1 c2 c3 rest h ih =>
    intro c hc
    simp only [stripINR, h, if_true] at hc
    have := ih c hc
    simp_all
  | case2 c1 c2 c3 rest h ih =>
    intro c hc
    simp only [stripINR, h, if_false, Bool.false_eq_true, List.mem_cons] at hc
    rcases hc with h1 | h1
    · simp [h1]
    · have := ih c h1
      simp_all
  | case3 s hx =>
    intro c hc
    rcases s with _ | ⟨a, _ | ⟨b, t⟩⟩
    · simp [stripINR] at hc
    · simpa [stripINR] using hc
    · rcases t with _ | ⟨d, t2⟩
      · simpa [stripINR] using hc
      · exact absurd rfl (hx a b d t2)

theorem mem_trimWs (l : List Char) : ∀ c ∈ trimWs l, c ∈ l := by
  intro c hc
  unfold trimWs at hc
  rw [List.mem_reverse] at hc
  have h1 := (List.dropWhile_sublist (l := (l.dropWhile Char.isWhitespace).reverse)
    (p := Char.isWhitespace)).mem hc
  rw [List.mem_reverse] at h1
  exact (List.dropWhile_sublist (p := Char.isWhitespace)).mem h1

theorem findNumToken_eq_none (l : List Char) (h : ∀ c ∈ l, ¬ c.isDigit = true) :
    findNumToken l = none := by
  induction l with
  | nil => rfl
  | cons c rest ih =>
    rw [findNumToken]
    rw [if_neg (h c (by simp))]
    exact ih (fun d hd => h d (by simp [hd]))

theorem parsePrice_no_digit (s : String) (h : ∀ c ∈ s.data, ¬ c.isDigit = true) :
    parsePrice s = 0 := by
  unfold parsePrice
  split
  · rfl
  · have hnone : findNumToken (cleanedPriceChars s) = none := by
      apply findNumToken_eq_none
      intro c hc
      unfold cleanedPriceChars at hc
      rw [List.mem_filter] at hc
      apply h
      have h4 := mem_stripMRP _ c (mem_stripRs _ c (mem_stripINR _ c (mem_trimWs _ c hc.1)))
      unfold removeCurrencySymbols at h4
      exact (List.mem_filter.mp h4).1
    rw [hnone]

theorem tokenValue_frac (t fr : List Char)
    (h : t.dropWhile (fun c => !(c == '.')) = '.' :: fr) :
    tokenValue t = (digitsToNat (t.takeWhile (fun c => !(c == '.'))) : ℚ) +
      (digitsToNat fr : ℚ) / (10 : ℚ) ^ fr.length := by
  unfold tokenValue
  rw [h]

theorem tokenValue_int (t : List Char)
    (h : t.dropWhile (fun c => !(c == '.')) = []) :
    tokenValue t = (digitsToNat (t.takeWhile (fun c => !(c == '.'))) : ℚ) := by
  unfold tokenValue
  rw [h]

theorem parsePrice_tok (s : String) (tok : List Char)
    (hne : ¬ s.data.isEmpty = true)
    (htok : findNumToken (cleanedPriceChars s) = some tok) :
    parsePrice s = round2 (tokenValue tok) := by
  unfold parsePrice
  rw [if_neg hne, htok]

theorem jsParseFloat_999 : jsParseFloat "999" = some 999 := by
  unfold jsParseFloat parseFloatChars
  rw [if_neg (by decide)]
  rw [show pfSignVal (pfBody "999".data) = 1 from by decide]
  rw [show pfIntChars (pfUnsigned (pfBody "999".data)) = ['9', '9', '9'] from by decide]
  rw [show pfFracChars (pfUnsigned (pfBody "999".data)) = [] from by decide]
  rw [show pfExp (pfUnsigned (pfBody "999".data)) = 0 from by decide]
  rw [show digitsToNat ['9', '9', '9'] = 999 from by decide]
  rw [show digitsToNat ([] : List Char) = 0 from by decide]
  norm_num

theorem listMinQ_mem (l : List ℚ) (h : l ≠ []) : listMinQ l ∈ l := by
  induction l with
  | nil => exact absurd rfl h
  | cons x t ih =>
    rcases t with _ | ⟨y, t2⟩
    · simp [listMinQ]
    · rw [listMinQ]
      rcases min_cases x (listMinQ (y :: t2)) with ⟨he, _⟩ | ⟨he, _⟩
      · simp [he]
      · rw [he]
        exact List.mem_cons_of_mem x (ih (by simp))

theorem listMinQ_le (l : List ℚ) : ∀ x ∈ l, listMinQ l ≤ x := by
  induction l with
  | nil => simp
  | cons x t ih =>
    intro z hz
    rcases t with _ | ⟨y, t2⟩
    · simp at hz
      simp [listMinQ, hz]
    · rw [listMinQ]
      rcases List.mem_cons.mp hz with h1 | h1
      · rw [h1]
        exact min_le_left _ _
      · exact le_trans (min_le_right _ _) (ih z h1)

theorem orProduct_ne_empty (s : String) : orProduct s ≠ "" := by
  unfold orProduct
  split
  · decide
  · intro he
    rename_i h
    rw [he] at h
    exact h rfl

/-- C4: for every input string, `parsePrice` strips currency symbols and
the prefix words MRP/Rs/INR, removes all commas, extracts the first
contiguous numeric token and returns it as a decimal rounded to two
fractional digits (this pipeline is the definition of `parsePrice`,
embedded from the source); it returns exactly 0 for every input with no
numeric token — in particular any digit-free input and the empty string —
and `"₹1,23,499.00"` parses to `123499.00` (and `"MRP: Rs. 2,999"` to
`2999`). The function is total, so it never throws. -/
theorem parsePrice_contract :
    (∀ s : String, (∀ c ∈ s.data, ¬ c.isDigit = true) → parsePrice s = 0) ∧
    parsePrice "" = 0 ∧
    parsePrice "₹1,23,499.00" = 123499 ∧
    parsePrice "MRP: Rs. 2,999" = 2999 := by
  refine ⟨parsePrice_no_digit, rfl, ?_, ?_⟩
  · rw [parsePrice_tok "₹1,23,499.00" ['1', '2', '3', '4', '9', '9', '.', '0', '0']
      (by decide) (by decide)]
    rw [tokenValue_frac _ ['0', '0'] (by decide)]
    rw [show digitsToNat (List.takeWhile (fun c => !(c == '.'))
      ['1', '2', '3', '4', '9', '9', '.', '0', '0']) = 123499 from by decide]
    rw [show digitsToNat ['0', '0'] = 0 from by decide]
    norm_num [round2, round_ofNat]
  · rw [parsePrice_tok "MRP: Rs. 2,999" ['2', '9', '9', '9'] (by decide) (by decide)]
    rw [tokenValue_int _ (by decide)]
    rw [show digitsToNat (List.takeWhile (fun c => !(c == '.'))
      ['2', '9', '9', '9']) = 2999 from by decide]
    norm_num [round2, round_ofNat]

/-- Witness for C4: the digit-free input `"no price found"` evaluates to 0
through the first conjunct. -/
theorem parsePrice_contract_witness : parsePrice "no price found" = 0 :=
  parsePrice_contract.1 "no price found" (by decide)

/-- C7: the router of `scrapeProduct` equals first-match lookup over the
fixed token table `[amazon, flipkart, croma, meesho, reliancedigital,
myntra]` on the lowercased URL; when no token occurs in the URL the route
is `none` and `scrapeProduct` returns `none` for every fetch environment
(hence performs no fetch: its result does not depend on any page); when a
token matches, `scrapeProduct` delegates to the matched marketplace's
extractor. -/
theorem scrapeProduct_router_contract :
    (∀ url : String, routeMarketplace url = routeFirstMatch url) ∧
    (∀ url : String,
      (∀ t ∈ marketTokenTable.map Prod.snd, ¬ strContains (strLower url) t = true) →
      routeMarketplace url = none) ∧
    (∀ (url : String) (env : FetchEnv), routeMarketplace url = none →
      scrapeProduct env url = none) ∧
    (∀ (url : String) (env env2 : FetchEnv), routeMarketplace url = none →
      scrapeProduct env url = scrapeProduct env2 url) ∧
    (∀ (url : String) (env : FetchEnv) (m : Marketplace), routeMarketplace url = some m →
      scrapeProduct env url = extractFor m env) := by
  refine ⟨?_, ?_, ?_, ?_, ?_⟩
  · intro url
    unfold routeMarketplace
    split_ifs with h1 h2 h3 h4 h5 h6 <;>
      simp [routeFirstMatch, marketTokenTable, List.find?, *]
  · intro url h
    have t1 := h "amazon" (by simp [marketTokenTable])
    have t2 := h "flipkart" (by simp [marketTokenTable])
    have t3 := h "croma" (by simp [marketTokenTable])
    have t4 := h "meesho" (by simp [marketTokenTable])
    have t5 := h "reliancedigital" (by simp [marketTokenTable])
    have t6 := h "myntra" (by simp [marketTokenTable])
    simp [routeMarketplace, t1, t2, t3, t4, t5, t6]
  · intro url env h
    unfold scrapeProduct
    rw [h]
  · intro url env env2 h
    unfold scrapeProduct
    rw [h]
  · intro url env m h
    unfold scrapeProduct
    rw [h]

/-- Witness for C7: an unsupported URL yields `none` under an arbitrary
fetch environment. -/
theorem scrapeProduct_router_contract_witness :
    scrapeProduct ⟨none, none, none, none, none, none⟩ "https://www.ebay.com/itm/123" = none :=
  scrapeProduct_router_contract.2.2.1 "https://www.ebay.com/itm/123"
    ⟨none, none, none, none, none, none⟩ (by decide)

/-- C6: each of the six site extractors returns `none` exactly when its
page fetch failed; a fetched page always yields a record (the one its
builder constructs), and that record's title is never empty — it falls
back to `"Product"`. -/
theorem extractors_fetch_contract :
    (∀ a : Option AmazonPage, scrapeAmazonProduct a = none ↔ a = none) ∧
    (∀ f : Option FlipkartPage, scrapeFlipkartProduct f = none ↔ f = none) ∧
    (∀ c : Option BasicPage, scrapeCromaProduct c = none ↔ c = none) ∧
    (∀ c : Option BasicPage, scrapeMeeshoProduct c = none ↔ c = none) ∧
    (∀ c : Option BasicPage, scrapeRelianceDigitalProduct c = none ↔ c = none) ∧
    (∀ c : Option BasicPage, scrapeMyntraProduct c = none ↔ c = none) ∧
    (∀ pg : AmazonPage, scrapeAmazonProduct (some pg) = some (buildAmazonProduct pg) ∧
      (buildAmazonProduct pg).title ≠ "") ∧
    (∀ pg : FlipkartPage, scrapeFlipkartProduct (some pg) = some (buildFlipkartProduct pg) ∧
      (buildFlipkartProduct pg).title ≠ "") ∧
    (∀ pg : BasicPage, scrapeCromaProduct (some pg) = some (buildBasicProduct pg) ∧
      (buildBasicProduct pg).title ≠ "") := by
  refine ⟨?_, ?_, ?_, ?_, ?_, ?_, ?_, ?_, ?_⟩
  · intro a
    cases a <;> simp [scrapeAmazonProduct]
  · intro f
    cases f <;> simp [scrapeFlipkartProduct]
  · intro c
    cases c <;> simp [scrapeCromaProduct]
  · intro c
    cases c <;> simp [scrapeMeeshoProduct]
  · intro c
    cases c <;> simp [scrapeRelianceDigitalProduct]
  · intro c
    cases c <;> simp [scrapeMyntraProduct]
  · intro pg
    exact ⟨rfl, orProduct_ne_empty _⟩
  · intro pg
    exact ⟨rfl, orProduct_ne_empty _⟩
  · intro pg
    exact ⟨rfl, orProduct_ne_empty _⟩

theorem mem_ite_singleton {α : Type} (x y : α) (c : Prop) [Decidable c]
    (h : x ∈ (if c then [y] else [])) : x = y := by
  split at h
  · simpa using h
  · simp at h

theorem searchAmazonPrice_fields (t : String) (f : Option AmazonSearchPage)
    (r : MarketplacePrice) (h : searchAmazonPrice t f = some r) :
    r.availability = Availability.inStock ∧ r.currency = "INR" := by
  cases f with
  | none => simp [searchAmazonPrice] at h
  | some pg =>
    simp only [searchAmazonPrice] at h
    split at h
    · simp at h
    · split at h
      · rw [Option.some_inj] at h
        rw [← h]
        exact ⟨rfl, rfl⟩
      · simp at h

theorem searchFlipkartPrice_fields (t : String) (f : Option FlipkartSearchPage)
    (r : MarketplacePrice) (h : searchFlipkartPrice t f = some r) :
    r.availability = Availability.inStock ∧ r.currency = "INR" := by
  cases f with
  | none => simp [searchFlipkartPrice] at h
  | some pg =>
    simp only [searchFlipkartPrice] at h
    split at h
    · rw [Option.some_inj] at h
      rw [← h]
      exact ⟨rfl, rfl⟩
    · simp at h

theorem searchCromaPrice_fields (t : String) (f : Option SingleSearchPage)
    (r : MarketplacePrice) (h : searchCromaPrice t f = some r) :
    r.availability = Availability.inStock ∧ r.currency = "INR" := by
  cases f with
  | none => simp [searchCromaPrice] at h
  | some pg =>
    simp only [searchCromaPrice] at h
    split at h
    · rw [Option.some_inj] at h
      rw [← h]
      exact ⟨rfl, rfl⟩
    · simp at h

theorem searchReliancePrice_fields (t : String) (f : Option SingleSearchPage)
    (r : MarketplacePrice) (h : searchReliancePrice t f = some r) :
    r.availability = Availability.inStock ∧ r.currency = "INR" := by
  cases f with
  | none => simp [searchReliancePrice] at h
  | some pg =>
    simp only [searchReliancePrice] at h
    split at h
    · rw [Option.some_inj] at h
      rw [← h]
      exact ⟨rfl, rfl⟩
    · simp at h

theorem batchOutcomes_fields (t sm : String) (b : SearchBatch) :
    ∀ o ∈ batchOutcomes t sm b, ∀ r : MarketplacePrice, o = some r →
      r.availability = Availability.inStock ∧ r.currency = "INR" := by
  intro o ho r hr
  unfold batchOutcomes at ho
  rcases List.mem_append.mp ho with h1 | h1
  · rcases List.mem_append.mp h1 with h2 | h2
    · rcases List.mem_append.mp h2 with h3 | h3
      · have := mem_ite_singleton o (searchAmazonPrice t b.amazon) _ h3
        exact searchAmazonPrice_fields t b.amazon r (this ▸ hr)
      · have := mem_ite_singleton o (searchFlipkartPrice t b.flipkart) _ h3
        exact searchFlipkartPrice_fields t b.flipkart r (this ▸ hr)
    · have := mem_ite_singleton o (searchCromaPrice t b.croma) _ h2
      exact searchCromaPrice_fields t b.croma r (this ▸ hr)
  · have := mem_ite_singleton o (searchReliancePrice t b.reliance) _ h1
    exact searchReliancePrice_fields t b.reliance r (this ▸ hr)

/-- C10: every `MarketplacePrice` the aggregator produces — the prepended
source entry and every marketplace search result — has availability
`in-stock` and currency `"INR"`; no code path yields `out-of-stock`,
`limited` or another currency. -/
theorem aggregator_fields_contract (t sm : String) (sp : ℚ) (su : String)
    (b : SearchBatch) (timedOut : Bool) :
    ∀ p ∈ searchProductPrices t sm sp su b timedOut,
      p.availability = Availability.inStock ∧ p.currency = "INR" := by
  intro p hp
  unfold searchProductPrices at hp
  rcases List.mem_cons.mp hp with h1 | h1
  · rw [h1]
    exact ⟨rfl, rfl⟩
  · rw [List.mem_filter] at h1
    obtain ⟨h2, _⟩ := h1
    rw [List.mem_filterMap] at h2
    obtain ⟨o, ho, hor⟩ := h2
    have hbo : o ∈ batchOutcomes t sm b := by
      split at ho
      · simp at ho
      · exact ho
    exact batchOutcomes_fields t sm b o hbo p hor

/-- Witness for C10: the source entry of a concrete aggregation is
`in-stock` / `"INR"`. -/
theorem aggregator_fields_contract_witness :
    (sourceEntry "Amazon" 100 "https://www.amazon.in/dp/X").availability =
        Availability.inStock ∧
      (sourceEntry "Amazon" 100 "https://www.amazon.in/dp/X").currency = "INR" :=
  aggregator_fields_contract "phone" "Amazon" 100 "https://www.amazon.in/dp/X"
    ⟨none, none, none, none⟩ true (sourceEntry "Amazon" 100 "https://www.amazon.in/dp/X")
    (List.mem_cons_self _ _)

/-- C8: the aggregator's output always starts with (and hence contains)
the source marketplace's own observation; when the 10-second deadline wins
the race the output is exactly the source entry with no batch result and
no error; otherwise the tail is exactly the non-null, positive-price batch
results; every non-source entry has a positive price; and the batch holds
one search per searchable marketplace (amazon, flipkart, croma, reliance)
whose token does not occur case-insensitively in the source name. -/
theorem searchProductPrices_contract (t sm : String) (sp : ℚ) (su : String)
    (b : SearchBatch) (timedOut : Bool) :
    (searchProductPrices t sm sp su b timedOut).head? = some (sourceEntry sm sp su) ∧
    searchProductPrices t sm sp su b timedOut ≠ [] ∧
    (timedOut = true → searchProductPrices t sm sp su b timedOut = [sourceEntry sm sp su]) ∧
    (timedOut = false →
      (searchProductPrices t sm sp su b timedOut).tail =
        ((batchOutcomes t sm b).filterMap id).filter (fun r => decide (0 < r.price))) ∧
    (∀ p ∈ (searchProductPrices t sm sp su b timedOut).tail, 0 < p.price) ∧
    (batchOutcomes t sm b).length =
      ((["amazon", "flipkart", "croma", "reliance"].filter
        (fun tok => !strContains (strLower sm) tok))).length := by
  refine ⟨rfl, by simp [searchProductPrices], ?_, ?_, ?_, ?_⟩
  · intro h
    rw [h]
    simp [searchProductPrices]
  · intro h
    rw [h]
    simp [searchProductPrices]
  · intro p hp
    unfold searchProductPrices at hp
    rw [List.tail_cons, List.mem_filter] at hp
    exact of_decide_eq_true hp.2
  · unfold batchOutcomes
    split_ifs <;> simp [List.filter, *]

/-- Witness for C8: a timed-out aggregation from source `"Croma"` returns
only the source entry. -/
theorem searchProductPrices_contract_witness :
    searchProductPrices "phone" "Croma" 500 "https://www.croma.com/p/1"
      ⟨none, none, none, none⟩ true =
      [sourceEntry "Croma" 500 "https://www.croma.com/p/1"] :=
  (searchProductPrices_contract "phone" "Croma" 500 "https://www.croma.com/p/1"
    ⟨none, none, none, none⟩ true).2.2.1 rfl

@[simp]
theorem toPriceData_price (m : MarketplacePrice) : (toPriceData m).price = m.price := rfl

@[simp]
theorem toPriceData_savings (m : MarketplacePrice) : (toPriceData m).savings = none := rfl

@[simp]
theorem toPriceData_isBestPrice (m : MarketplacePrice) :
    (toPriceData m).isBestPrice = false := rfl

@[simp]
theorem rankUpd_price (b : ℚ) (p : PriceData) : (rankUpd b p).price = p.price := rfl

@[simp]
theorem rankUpd_isBestPrice (b : ℚ) (p : PriceData) :
    (rankUpd b p).isBestPrice = decide (p.price = b) := rfl

@[simp]
theorem rankUpd_savings (b : ℚ) (p : PriceData) :
    (rankUpd b p).savings =
      if b < p.price then some (round (p.price - b)) else p.savings := rfl

theorem rankObservations_eq (obs : List MarketplacePrice) (h : obs ≠ []) :
    rankObservations obs =
      obs.map (fun o => rankUpd (minObsPrice obs) (toPriceData o)) := by
  unfold rankObservations rankPrices minObsPrice
  rw [if_neg (by simp [h])]
  rw [List.map_map]
  have h2 : List.map (fun q => q.price) (List.map toPriceData obs) =
      List.map (fun o => o.price) obs := by
    rw [List.map_map]
    rfl
  rw [h2]
  rfl

theorem rank_mem (obs : List MarketplacePrice) (h : obs ≠ []) (p : PriceData)
    (hp : p ∈ rankObservations obs) :
    ∃ o ∈ obs, p = rankUpd (minObsPrice obs) (toPriceData o) := by
  rw [rankObservations_eq obs h] at hp
  obtain ⟨o, ho, he⟩ := List.mem_map.mp hp
  exact ⟨o, ho, he.symm⟩

theorem minObsPrice_le (obs : List MarketplacePrice) : ∀ o ∈ obs, minObsPrice obs ≤ o.price := by
  intro o ho
  exact listMinQ_le _ _ (List.mem_map_of_mem _ ho)

theorem minObsPrice_attained (obs : List MarketplacePrice) (h : obs ≠ []) :
    ∃ o ∈ obs, o.price = minObsPrice obs := by
  have hm := listMinQ_mem (obs.map (fun o => o.price)) (by simp [h])
  obtain ⟨o, ho, he⟩ := List.mem_map.mp hm
  exact ⟨o, ho, he⟩

theorem rank_countP (obs : List MarketplacePrice) (h : obs ≠ []) :
    (rankObservations obs).countP (fun p => p.isBestPrice) =
      obs.countP (fun o => decide (o.price = minObsPrice obs)) := by
  rw [rankObservations_eq obs h, List.countP_map]
  rfl

theorem rank_savings_eq (obs : List MarketplacePrice) (h : obs ≠ []) :
    ∀ p ∈ rankObservations obs,
      p.savings = if minObsPrice obs < p.price
        then some (round (p.price - minObsPrice obs)) else none := by
  intro p hp
  obtain ⟨o, _, he⟩ := rank_mem obs h p hp
  rw [he]
  simp

theorem rank_isBest_eq (obs : List MarketplacePrice) (h : obs ≠ []) :
    ∀ p ∈ rankObservations obs, p.isBestPrice = decide (p.price = minObsPrice obs) := by
  intro p hp
  obtain ⟨o, _, he⟩ := rank_mem obs h p hp
  rw [he]
  simp

/-- Counterexample to C1 as stated: on a two-way tie at the minimum the
ranking step flags BOTH entries (`p.isBestPrice = p.price === bestPrice`
for every entry), so it does not mark exactly one entry and no
first-occurrence tie-break exists. -/
theorem rank_best_flags_cex :
    (rankObservations c1TieObs).countP (fun p => p.isBestPrice) = 2 ∧
    ¬ (rankObservations c1TieObs).countP (fun p => p.isBestPrice) = 1 := by
  constructor
  · decide
  · decide

/-- C1 (amended): the ranking step flags exactly the entries whose price
equals the minimum computed over all entries (zeros included): the number
of flagged entries equals the number of entries attaining that minimum
(so ties are all flagged, not first-only), at least one entry is always
flagged, every flagged entry's price is that minimum, and in the
intended regime — all prices positive and the minimum attained once —
exactly one entry is flagged and its price is the least price. -/
theorem rank_best_flags_contract (obs : List MarketplacePrice) (h : obs ≠ []) :
    ((rankObservations obs).countP (fun p => p.isBestPrice) =
      obs.countP (fun o => decide (o.price = minObsPrice obs))) ∧
    (∀ p ∈ rankObservations obs, p.isBestPrice = true → p.price = minObsPrice obs) ∧
    1 ≤ (rankObservations obs).countP (fun p => p.isBestPrice) ∧
    ((∀ o ∈ obs, 0 < o.price) →
      obs.countP (fun o => decide (o.price = minObsPrice obs)) = 1 →
      ((rankObservations obs).countP (fun p => p.isBestPrice) = 1 ∧
        ∀ p ∈ rankObservations obs, p.isBestPrice = true →
          (0 < p.price ∧ ∀ o ∈ obs, p.price ≤ o.price))) := by
  refine ⟨rank_countP obs h, ?_, ?_, ?_⟩
  · intro p hp hb
    have hbe := rank_isBest_eq obs h p hp
    rw [hb] at hbe
    exact of_decide_eq_true hbe.symm
  · rw [rank_countP obs h]
    obtain ⟨o, ho, he⟩ := minObsPrice_attained obs h
    have hpos : 0 < obs.countP (fun o => decide (o.price = minObsPrice obs)) :=
      List.countP_pos_iff.mpr ⟨o, ho, by simp [he]⟩
    omega
  · intro hpos hcnt
    constructor
    · rw [rank_countP obs h, hcnt]
    · intro p hp hb
      have hpm : p.price = minObsPrice obs := by
        have hbe := rank_isBest_eq obs h p hp
        rw [hb] at hbe
        exact of_decide_eq_true hbe.symm
      constructor
      · obtain ⟨o, ho, he⟩ := minObsPrice_attained obs h
        rw [hpm, ← he]
        exact hpos o ho
      · intro o ho
        rw [hpm]
        exact minObsPrice_le obs o ho

/-- Witness for C1 (amended): on the concrete tie list at least one entry
is flagged. -/
theorem rank_best_flags_contract_witness :
    1 ≤ (rankObservations c1TieObs).countP (fun p => p.isBestPrice) :=
  (rank_best_flags_contract c1TieObs (by decide)).2.2.1

/-- Counterexample to C2 as stated: `bestPrice` is `Math.min` over ALL
entries, so a zero-priced entry IS flagged best (here the zero-priced
source is flagged, not the 500-priced result), and on an all-zero list
every entry is flagged rather than none. -/
theorem rank_zero_entries_cex :
    ((rankObservations c2ZeroObs).map (fun p => p.isBestPrice) = [true, false]) ∧
    ((rankObservations c2AllZeroObs).map (fun p => p.isBestPrice) = [true]) := by
  constructor
  · decide
  · decide

/-- C2 (amended): the ranking's minimum ranges over all entries including
zeros. For non-negative prices: a zero-priced entry never receives a
savings value; when some entry has price 0 the flagged entries are
exactly the zero-priced ones (so a zero-priced entry IS marked best,
contrary to the original claim); when every price is 0 every entry is
flagged and none receives savings (not "no entry flagged"); and the
zero-priced marketplace-search placeholder entries are appended after
the ranking ran, with `isBestPrice = false` and no savings, so
placeholders are indeed never flagged and never receive savings. -/
theorem rank_zero_entries_contract (obs : List MarketplacePrice) (h : obs ≠ [])
    (h0 : ∀ o ∈ obs, 0 ≤ o.price) :
    (∀ p ∈ rankObservations obs, p.price = 0 → p.savings = none) ∧
    ((∃ o ∈ obs, o.price = 0) →
      ∀ p ∈ rankObservations obs, p.isBestPrice = decide (p.price = 0)) ∧
    ((∀ o ∈ obs, o.price = 0) →
      ∀ p ∈ rankObservations obs, p.isBestPrice = true ∧ p.savings = none) ∧
    (∀ productTitle marketplace : String,
      ∀ e ∈ (analyzePrices obs productTitle marketplace).drop
        (rankObservations obs).length,
        e.price = 0 ∧ e.isBestPrice = false ∧ e.savings = none) := by
  have hmin0 : 0 ≤ minObsPrice obs := by
    obtain ⟨o, ho, he⟩ := minObsPrice_attained obs h
    rw [← he]
    exact h0 o ho
  refine ⟨?_, ?_, ?_, ?_⟩
  · intro p hp hz
    rw [rank_savings_eq obs h p hp, hz, if_neg (not_lt.mpr hmin0)]
  · rintro ⟨o, ho, hz⟩ p hp
    have hminz : minObsPrice obs = 0 :=
      le_antisymm (hz ▸ minObsPrice_le obs o ho) hmin0
    rw [rank_isBest_eq obs h p hp, hminz]
  · intro hall p hp
    obtain ⟨o, ho, he⟩ := minObsPrice_attained obs h
    have hminz : minObsPrice obs = 0 := by
      rw [← he]
      exact hall o ho
    obtain ⟨o2, ho2, he2⟩ := rank_mem obs h p hp
    have hp0 : p.price = 0 := by
      rw [he2, rankUpd_price, toPriceData_price]
      exact hall o2 ho2
    constructor
    · rw [rank_isBest_eq obs h p hp, hminz, hp0]
      simp
    · rw [rank_savings_eq obs h p hp, hp0, hminz]
      simp
  · intro productTitle marketplace e he
    unfold analyzePrices at he
    split at he
    · rw [List.drop_left] at he
      obtain ⟨u, _, he2⟩ := List.mem_map.mp he
      rw [← he2]
      exact ⟨rfl, rfl, rfl⟩
    · rw [List.drop_length] at he
      simp at he

/-- Witness for C2 (amended): the zero-priced ranked entry of the
concrete list carries no savings. -/
theorem rank_zero_entries_contract_witness : c2WitEntry.savings = none :=
  (rank_zero_entries_contract c2ZeroObs (by decide) (by decide)).1 c2WitEntry
    (by decide) rfl

/-- Counterexample to C3 as stated: with a zero-priced entry present the
code's `bestPrice` is 0, not the minimum positive price 500, so the
500-priced entry — which equals the claim's `minPrice` and should carry
no savings — does carry one (and the 700 entry's savings are relative to
0, not 500). -/
theorem rank_savings_cex :
    specMinPosPrice c3Obs = 500 ∧
    ((rankObservations c3Obs).map (fun p => p.price) = [0, 500, 700]) ∧
    ((rankObservations c3Obs).map (fun p => p.savings.isSome) = [false, true, true]) ∧
    ¬ (∀ p ∈ rankObservations c3Obs,
        p.price = specMinPosPrice c3Obs → p.savings = none) := by
  refine ⟨by decide, by decide, by decide, ?_⟩
  intro hall
  have hmem : (rankObservations c3Obs).get ⟨1, by decide⟩ ∈ rankObservations c3Obs :=
    List.get_mem _ _ _
  have hpr : ((rankObservations c3Obs).get ⟨1, by decide⟩).price =
      specMinPosPrice c3Obs := by decide
  have hnone := hall _ hmem hpr
  have hsome : (((rankObservations c3Obs).get ⟨1, by decide⟩).savings).isSome = true := by
    decide
  rw [hnone] at hsome
  simp at hsome

/-- C3 (amended): savings are computed relative to the minimum over ALL
entries (zeros included), not the minimum positive price: every ranked
entry's savings equal `Math.round(price − bestPrice)` exactly when its
price strictly exceeds that overall minimum, and are absent otherwise. -/
theorem rank_savings_contract (obs : List MarketplacePrice) (h : obs ≠ []) :
    ∀ p ∈ rankObservations obs,
      p.savings = if minObsPrice obs < p.price
        then some (round (p.price - minObsPrice obs)) else none :=
  rank_savings_eq obs h

/-- Witness for C3 (amended): the sole entry of a singleton list gets the
`else` branch — no savings. -/
theorem rank_savings_contract_witness :
    ((rankObservations c3WitObs).get ⟨0, by decide⟩).savings =
      (if minObsPrice c3WitObs < ((rankObservations c3WitObs).get ⟨0, by decide⟩).price
       then some (round (((rankObservations c3WitObs).get ⟨0, by decide⟩).price -
         minObsPrice c3WitObs))
       else none) :=
  rank_savings_contract c3WitObs (by decide) _ (List.get_mem _ _ _)

/-- Counterexample to C5 as stated: on this Croma page every DOM price
strategy yields 0 and the StructuredDataReader would return 999, yet
`scrapeCromaProduct` reports current price 0 — the Croma (like Meesho,
Reliance Digital and Myntra) extractor never consults JSON-LD; only the
Amazon and Flipkart extractors have that fallback. -/
theorem jsonld_fallback_cex :
    extractPriceFromJsonLd c5CromaPage.jsonLdScripts =
      some { current := 999, original := none } ∧
    (scrapeCromaProduct (some c5CromaPage)).map (fun r => r.price.current) = some 0 := by
  constructor
  · simp only [c5CromaPage, extractPriceFromJsonLd, itemsPrice, itemPrice,
      firstOfferPrice, extractOfferPrice, offerPriceField, jsParseFloat_999]
    simp [jsParseFloat_999]
  · decide

/-- C5 (amended): only the Amazon and Flipkart extractors fall back to the
StructuredDataReader when every DOM price strategy yields 0 — their
current price is then exactly the reader's result (or 0 when the reader
finds nothing) — while the four basic extractors (Croma, Meesho,
Reliance Digital, Myntra) produce identical records whatever JSON-LD the
page embeds. The reader itself prefers an offer's non-empty `price` field
over `lowPrice` (ignoring `lowPrice` entirely when `price` is usable),
treats an absent `price` as `lowPrice` promoted to the price slot, and
returns `highPrice` as the original price when present and parseable. -/
theorem jsonld_fallback_contract :
    (∀ pg : AmazonPage, amazonDomPrice pg = 0 →
      amazonCurrentPrice pg = (match extractPriceFromJsonLd pg.jsonLdScripts with
        | some lp => lp.current
        | none => 0)) ∧
    (∀ pg : FlipkartPage, flipkartDomPrice pg = 0 →
      flipkartCurrentPrice pg = (match extractPriceFromJsonLd pg.jsonLdScripts with
        | some lp => lp.current
        | none => 0)) ∧
    (∀ (pg : BasicPage) (ld : List (Option (List LdItem))),
      buildBasicProduct { pg with jsonLdScripts := ld } = buildBasicProduct pg) ∧
    (∀ (o : LdOffer) (s : String), o.price = some s → ¬ s.data.isEmpty = true →
      extractOfferPrice o = extractOfferPrice { o with lowPrice := none }) ∧
    (∀ o : LdOffer, o.price = none →
      extractOfferPrice o =
        extractOfferPrice { price := o.lowPrice, lowPrice := none, highPrice := o.highPrice }) ∧
    (∀ (s h : String) (v w : ℚ), jsParseFloat s = some v → ¬ s.data.isEmpty = true →
      jsParseFloat h = some w → ¬ h.data.isEmpty = true →
      extractOfferPrice { price := some s, lowPrice := none, highPrice := some h } =
        some { current := v, original := some w }) := by
  refine ⟨?_, ?_, ?_, ?_, ?_, ?_⟩
  · intro pg hd
    unfold amazonCurrentPrice
    rw [if_pos hd]
  · intro pg hd
    unfold flipkartCurrentPrice
    rw [if_pos hd]
  · intro pg ld
    rfl
  · intro o s hps hne
    rcases o with ⟨op, olp, ohp⟩
    simp only at hps
    subst hps
    simp [extractOfferPrice, offerPriceField, hne]
  · intro o hpn
    rcases o with ⟨op, olp, ohp⟩
    simp only at hpn
    subst hpn
    rcases olp with _ | t
    · rfl
    · by_cases ht : t.data.isEmpty = true
      · simp [extractOfferPrice, offerPriceField, ht]
      · simp [extractOfferPrice, offerPriceField, ht]
  · intro s h v w hs hsne hh hhne
    simp [extractOfferPrice, offerPriceField, hsne, hs, hh, hhne]

/-- Witness for C5 (amended): the Amazon fallback fires on a concrete page
whose DOM price is 0. -/
theorem jsonld_fallback_contract_witness :
    amazonCurrentPrice c5WitAmazonPage =
      (match extractPriceFromJsonLd c5WitAmazonPage.jsonLdScripts with
        | some lp => lp.current
        | none => 0) :=
  jsonld_fallback_contract.1 c5WitAmazonPage (by decide)

set_option maxRecDepth 10000 in
/-- Counterexample to C9 as stated: the Croma extractor keeps a
7-character highlight (its filter is `length > 5`, not the claimed
10–500), and also keeps a 501-character one (no upper bound). -/
theorem highlights_bounds_cex :
    (scrapeCromaProduct (some c9CromaPage)).map (fun r => r.highlights) =
      some ["abcdefg"] ∧
    ¬ (10 < ("abcdefg" : String).length ∧ ("abcdefg" : String).length < 500) ∧
    (scrapeCromaProduct (some c9LongPage)).map
      (fun r => r.highlights.map (fun hl => hl.length)) = some [501] := by
  refine ⟨by decide, by decide, by decide⟩

/-- C9 (amended): every extractor returns at most 6 highlights; the
length filters differ per site — Amazon keeps entries with
`10 < length < 500`, Flipkart with `5 < length < 300`, and the four
basic extractors (Croma, Meesho, Reliance Digital, Myntra) only require
`length > 5` with no upper bound. -/
theorem highlights_bounds_contract :
    (∀ pg : AmazonPage, (buildAmazonProduct pg).highlights.length ≤ 6 ∧
      ∀ hl ∈ (buildAmazonProduct pg).highlights, 10 < hl.length ∧ hl.length < 500) ∧
    (∀ pg : FlipkartPage, (buildFlipkartProduct pg).highlights.length ≤ 6 ∧
      ∀ hl ∈ (buildFlipkartProduct pg).highlights, 5 < hl.length ∧ hl.length < 300) ∧
    (∀ pg : BasicPage, (buildBasicProduct pg).highlights.length ≤ 6 ∧
      ∀ hl ∈ (buildBasicProduct pg).highlights, 5 < hl.length) := by
  refine ⟨?_, ?_, ?_⟩
  · intro pg
    constructor
    · exact List.length_take_le _ _
    · intro hl hmem
      have hmem2 : hl ∈ amazonHighlights pg := List.mem_of_mem_take hmem
      unfold amazonHighlights at hmem2
      split at hmem2
      · rw [List.mem_filter] at hmem2
        have hb := hmem2.2
        simp only [Bool.and_eq_true, decide_eq_true_eq] at hb
        exact ⟨hb.1.2, hb.2⟩
      · rw [List.mem_filter] at hmem2
        have hb := hmem2.2
        simp only [Bool.and_eq_true, decide_eq_true_eq] at hb
        exact ⟨hb.1.1.2, hb.1.2⟩
  · intro pg
    constructor
    · exact List.length_take_le _ _
    · intro hl hmem
      have hmem2 := List.mem_of_mem_take hmem
      rw [List.mem_filter] at hmem2
      have hb := hmem2.2
      simp only [Bool.and_eq_true, decide_eq_true_eq] at hb
      exact ⟨hb.1.2, hb.2⟩
  · intro pg
    constructor
    · exact List.length_take_le _ _
    · intro hl hmem
      have hmem2 := List.mem_of_mem_take hmem
      rw [List.mem_filter] at hmem2
      have hb := hmem2.2
      simp only [Bool.and_eq_true, decide_eq_true_eq] at hb
      exact hb.2

/-- Witness for C9 (amended): the concrete Croma page's highlights respect
the cap. -/
theorem highlights_bounds_contract_witness :
    (buildBasicProduct c9CromaPage).highlights.length ≤ 6 :=
  (highlights_bounds_contract.2.2 c9CromaPage).1
